import Mathlib

/-!
# gocurl: a verification development

A shallow embedding of `cmd/gocurl` (`main.go`, `arguments.go`, `requests.go`).

* Go `string` values are Lean `String`s, `len` is the UTF-8 byte size.
* Go `map[string]V` values are association lists with first-match lookup.
* `fmt.Printf` to standard output is modelled by returning the printed text.
* A Go run-time panic (index out of range) is modelled by `none`.
* Code that lives in the Go standard library (`net/url`, `net/http`, `httputil`)
  is either modelled from its documented behaviour (`strings`, `textproto`) or
  taken as a parameter (`Env`, the parser argument of `processURL`).
-/

namespace Gocurl

/-! ## Go primitives -/

/-- The Go builtin `len` on a string: its length in bytes. -/
def len (s : String) : Nat := s.utf8ByteSize

/-- Wrap-around of the Go type `int`, taken to be 64 bits wide (two's complement). -/
def wrapInt (x : Int) : Int := (x + 2 ^ 63) % 2 ^ 64 - 2 ^ 63

/-- The decimal rendering of an `int`, as produced by `strconv.Itoa` and by the verb `%d`. -/
def Itoa (n : Int) : String := toString n

/-- The predicate `unicode.IsSpace`. -/
def isSpace (c : Char) : Bool :=
  let n := c.toNat
  (9 ≤ n && n ≤ 13) || n = 32 || n = 0x85 || n = 0xA0 || n = 0x1680 ||
  (0x2000 ≤ n && n ≤ 0x200a) || n = 0x2028 || n = 0x2029 || n = 0x202f ||
  n = 0x205f || n = 0x3000

/-- Drop leading and trailing white space from a list of characters. -/
def trimChars (l : List Char) : List Char :=
  ((l.dropWhile isSpace).reverse.dropWhile isSpace).reverse

/-- The function `strings.TrimSpace`. -/
def TrimSpace (s : String) : String := String.mk (trimChars s.data)

/-- Split a list of characters at every occurrence of `sep`. -/
def splitChars (sep : Char) : List Char → List (List Char)
  | [] => [[]]
  | c :: cs =>
    if c = sep then [] :: splitChars sep cs
    else
      match splitChars sep cs with
      | [] => [[c]]
      | g :: gs => (c :: g) :: gs

/-- The function `strings.Split(s, sep)` for a one-byte separator: all the segments of `s`
between consecutive occurrences of `sep`. -/
def Split (s : String) (sep : Char) : List String := (splitChars sep s.data).map String.mk

/-- Lookup in a Go map: `v, ok := m[k]`. -/
def mapGet {V : Type} : List (String × V) → String → Option V
  | [], _ => none
  | (k', v) :: rest, k => if k' = k then some v else mapGet rest k

/-- Assignment in a Go map: `m[k] = v`. -/
def mapSet {V : Type} : List (String × V) → String → V → List (String × V)
  | [], k, v => [(k, v)]
  | (k', v') :: rest, k, v => if k' = k then (k, v) :: rest else (k', v') :: mapSet rest k v

/-! ## Data model (`arguments.go`, `requests.go`, `main.go`) -/

/-- The struct `Flags` of `arguments.go`. -/
structure Flags where
  verbose : Bool
  method : String
  header : List String
  data : String
  keepAlive : Bool
  deriving DecidableEq

/-- The struct `Request` of `requests.go`. -/
structure Request where
  url : String
  protocol : String
  host : String
  port : String
  path : String
  accept : String
  flags : Flags
  deriving DecidableEq

/-- The struct `ConnectionState` of `requests.go`. -/
structure ConnectionState where
  connNum : Int
  connPool : List (String × Int)
  connAddr : String
  deriving DecidableEq

/-- The struct `application` of `main.go`. -/
structure application where
  reqs : List Request
  connState : ConnectionState
  deriving DecidableEq

/-- The constructor `NewApplication` of `main.go`. -/
def NewApplication : application :=
  { reqs := [], connState := { connNum := -1, connPool := [], connAddr := "" } }

/-! ## The connect-completion handler (`createClientTrace`, `ConnectDone`) -/

/-- The handler `ConnectDone` of `createClientTrace`, run without interference from other
invocations: the printed line and the connection state it leaves. -/
def ConnectDone (req : Request) (cs : ConnectionState) (network addr : String)
    (err : Option String) : String × ConnectionState :=
  let _ := network
  let cs1 : ConnectionState :=
    if (mapGet cs.connPool addr).isNone then
      let n := wrapInt (cs.connNum + 1)
      { connNum := n, connPool := mapSet cs.connPool addr n, connAddr := addr }
    else cs
  let cs2 : ConnectionState :=
    { cs1 with connNum := (mapGet cs1.connPool addr).getD 0, connAddr := addr }
  let line :=
    match err with
    | some e =>
      "* Failed to connect to " ++ req.host ++ " (" ++ addr ++ ") #" ++ Itoa cs2.connNum ++
        ": " ++ e ++ "\n"
    | none => "* Connected to " ++ req.host ++ " (" ++ addr ++ ") #" ++ Itoa cs2.connNum ++ "\n"
  (line, cs2)

/-- A finite sequence of `ConnectDone` calls `(network, addr, err)`, one after the other. -/
def connectAll (req : Request) : ConnectionState → List (String × String × Option String) →
    ConnectionState
  | cs, [] => cs
  | cs, (network, addr, err) :: rest => connectAll req (ConnectDone req cs network addr err).2 rest

/-! ## HTTP headers (`net/http`, `net/textproto`) -/

/-- The predicate `validHeaderFieldByte` of `net/textproto`: the token characters of RFC 7230.
A character outside ASCII is encoded by bytes that are all invalid. -/
def validHeaderFieldByte (c : Char) : Bool :=
  c.isAlphanum ||
    [33, 35, 36, 37, 38, 39, 42, 43, 45, 46, 94, 95, 96, 124, 126].contains c.toNat

/-- The canonicalisation loop of `net/textproto`: upper case for the first letter and for a
letter after a hyphen, lower case elsewhere. -/
def canonChars : Bool → List Char → List Char
  | _, [] => []
  | upper, c :: cs =>
    let d := if upper then c.toUpper else c.toLower
    d :: canonChars (d = '-') cs

/-- The function `textproto.CanonicalMIMEHeaderKey`: a key with a byte that is no token
character is returned unchanged. -/
def CanonicalMIMEHeaderKey (s : String) : String :=
  if s.data.all validHeaderFieldByte then String.mk (canonChars true s.data) else s

/-- The type `http.Header`, a `map[string][]string`. -/
abbrev Header := List (String × List String)

/-- The method `Header.Set`. -/
def Header.Set (h : Header) (key value : String) : Header :=
  mapSet h (CanonicalMIMEHeaderKey key) [value]

/-- The method `Header.Get`: the first value of the canonical key, or the empty string. -/
def Header.Get (h : Header) (key : String) : String :=
  match mapGet h (CanonicalMIMEHeaderKey key) with
  | some (v :: _) => v
  | _ => ""

/-- The fields of `http.Request` that the program touches. -/
structure HttpRequest where
  Method : String
  URL : String
  Body : String
  Header : Header
  deriving DecidableEq

/-! ## Header application (`setRequestHeaders`) -/

/-- The loop `for _, header := range req.flags.header` of `setRequestHeaders`. An access to
`s[1]` out of range is `none`. -/
def applyHeaders : List String → Header → Request → Option (Header × Request)
  | [], h, req => some (h, req)
  | header :: rest, h, req =>
    let s := Split header ':'
    match s[0]?, s[1]? with
    | some s0, some s1 =>
      let key := TrimSpace s0
      let value := TrimSpace s1
      let h1 := h.Set key value
      let req1 : Request :=
        if key = "Connection" ∧ value = "keep-alive" then
          { req with flags := { req.flags with keepAlive := true } }
        else req
      applyHeaders rest h1 req1
    | _, _ => none

/-- The first statements of `setRequestHeaders`: the headers `Accept`, `User-Agent` and
`Connection`. -/
def baseHeaders (h : Header) (req : Request) : Header :=
  let h := h.Set "Accept" req.accept
  let h := h.Set "User-Agent" "gocurl/1.0"
  if req.flags.keepAlive then h.Set "Connection" "keep-alive"
  else h.Set "Connection" "close"

/-- The method `setRequestHeaders`: the request with its headers set, and the `Request` with
its possibly flipped `keepAlive` flag. -/
def setRequestHeaders (httpReq : HttpRequest) (req : Request) : Option (HttpRequest × Request) :=
  match applyHeaders req.flags.header (baseHeaders httpReq.Header req) req with
  | none => none
  | some (h, req) =>
    let h :=
      if (req.flags.method = "POST" ∨ req.flags.method = "PATCH" ∨ req.flags.method = "PUT") ∧
          req.flags.data ≠ "" then
        h.Set "Content-Length" (Itoa (len req.flags.data))
      else h
    some ({ httpReq with Header := h }, req)

/-- The text of a header string before its first colon (all of it when it has none). -/
def beforeColon (header : String) : String :=
  String.mk (header.data.takeWhile (fun c => c ≠ ':'))

/-- The whole remainder of a header string after its first colon. -/
def afterColon (header : String) : String :=
  String.mk ((header.data.dropWhile (fun c => c ≠ ':')).drop 1)

/-! ## The trace handlers (`createClientTrace`) -/

/-- The fields of `x509.Certificate` that are printed, already rendered as text. -/
structure Certificate where
  Subject : String
  Issuer : String
  NotBefore : String
  NotAfter : String
  deriving DecidableEq

/-- The fields of `tls.ConnectionState` that are printed; the protocol version and the cipher
suite are carried by their names. -/
structure TLSState where
  VersionName : String
  CipherSuiteName : String
  PeerCertificates : List Certificate
  HandshakeComplete : Bool
  deriving DecidableEq

/-- The notifications that the transport delivers to the handlers of `createClientTrace`. -/
inductive TraceEvent where
  | GetConn (hostPort : String)
  | GotConn (remoteAddr : String) (reused : Bool)
  | PutIdleConn (err : Option String)
  | DNSStart
  | DNSDone (addrs : List String) (coalesced : Bool)
  | ConnectStart (network addr : String)
  | ConnectDone (network addr : String) (err : Option String)
  | TLSHandshakeStart
  | TLSHandshakeDone (cs : TLSState) (err : Option String)
  | WroteHeaders
  deriving DecidableEq

/-- The variable `httpVersion` of `createClientTrace`. -/
def httpVersion (req : Request) : String :=
  if req.protocol = "https" then "HTTP/2" else "HTTP/1.1"

/-- The loop of `WroteHeaders` over the user headers. -/
def wroteHeaderLines : List String → Option (List String)
  | [] => some []
  | header :: rest =>
    let s := Split header ':'
    match s[0]?, s[1]? with
    | some s0, some s1 =>
      match wroteHeaderLines rest with
      | some ls => some (("> " ++ TrimSpace s0 ++ ": " ++ TrimSpace s1 ++ "\n") :: ls)
      | none => none
    | _, _ => none

/-- The handler `WroteHeaders`. -/
def WroteHeaders (req : Request) : Option (List String) :=
  match wroteHeaderLines req.flags.header with
  | none => none
  | some ls =>
    some (["> " ++ req.flags.method ++ " " ++ req.path ++ " " ++ httpVersion req ++ "\n",
        "> Host: " ++ req.host ++ "\n",
        "> Accept: " ++ req.accept ++ "\n"] ++ ls ++ [">\n"])

/-- The handler `GotConn`. -/
def GotConn (cs : ConnectionState) (remoteAddr : String) (reused : Bool) : List String :=
  let curConnNum := (mapGet cs.connPool remoteAddr).getD 0
  if reused then
    ["* Reusing existing connection #" ++ Itoa curConnNum ++ " with host " ++ remoteAddr ++ "\n"]
  else []

/-- The handler `DNSDone`. -/
def DNSDone (addrs : List String) (coalesced : Bool) : List String :=
  "* DNS lookup table:\n" ::
    (if coalesced then [] else addrs.map (fun a => "  - (" ++ a ++ ")\n"))

/-- The handler `TLSHandshakeDone`; `PeerCertificates[0]` out of range is `none`. -/
def TLSHandshakeDone (cs : TLSState) (err : Option String) : Option (List String) :=
  match err with
  | some e => some ["* TLS handshake failed: " ++ e ++ "\n"]
  | none =>
    match cs.PeerCertificates[0]? with
    | none => none
    | some cert =>
      some (["* SSL connection using " ++ cs.VersionName ++ " / " ++ cs.CipherSuiteName ++ "\n",
          "* Server certificate:\n",
          "  - Subject: " ++ cert.Subject ++ "\n",
          "  - Issuer: " ++ cert.Issuer ++ "\n",
          "  - Valid from: " ++ cert.NotBefore ++ "\n",
          "  - Valid to: " ++ cert.NotAfter ++ "\n"] ++
        (if cs.HandshakeComplete then ["* SSL verification succeded.\n", "* using HTTP/2\n"]
          else ["* SSL verification failed.\n"]))

/-- The trace of `createClientTrace` applied to one notification: the lines printed and the
connection state afterwards. -/
def createClientTrace (req : Request) (cs : ConnectionState) :
    TraceEvent → Option (List String × ConnectionState)
  | .GetConn hostPort => some (["* Trying " ++ hostPort ++ "...\n"], cs)
  | .GotConn remoteAddr reused => some (GotConn cs remoteAddr reused, cs)
  | .PutIdleConn _ =>
    some (["* Connection #" ++ Itoa cs.connNum ++ " returned to idle pool\n"], cs)
  | .DNSStart => some (["* DNS lookup begins...\n"], cs)
  | .DNSDone addrs coalesced => some (DNSDone addrs coalesced, cs)
  | .ConnectStart _ _ => some (["* Starting connection...\n"], cs)
  | .ConnectDone network addr err =>
    some ([(ConnectDone req cs network addr err).1], (ConnectDone req cs network addr err).2)
  | .TLSHandshakeStart => some (["* Starting TLS handshake\n"], cs)
  | .TLSHandshakeDone st err => (TLSHandshakeDone st err).map (fun ls => (ls, cs))
  | .WroteHeaders => (WroteHeaders req).map (fun ls => (ls, cs))

/-- The notifications of one call, handled one at a time in the order of delivery. -/
def runTrace (req : Request) : ConnectionState → List TraceEvent →
    Option (List String × ConnectionState)
  | cs, [] => some ([], cs)
  | cs, ev :: rest =>
    match createClientTrace req cs ev with
    | none => none
    | some (ls, cs1) =>
      match runTrace req cs1 rest with
      | none => none
      | some (ls2, cs2) => some (ls ++ ls2, cs2)

/-! ## Sending a request and rendering the response (`SendRequest`) -/

/-- The fields of `http.Response` that the program reads. -/
structure Response where
  ProtoMajor : Int
  StatusCode : Int
  Header : Header
  Body : String
  deriving DecidableEq

/-- The collaborators of `SendRequest` that live outside the repository.
* `NewRequestErr method url` is the error of `http.NewRequest`, if any;
* `Do` is `cl.Do`: the notifications it delivers to an attached trace while the call runs,
  and its result (notifications delivered after the call has returned are not modelled);
* `DumpResponse` is `httputil.DumpResponse(resp, false)`. -/
structure Env where
  NewRequestErr : String → String → Option String
  Do : HttpRequest → List TraceEvent × Except String Response
  DumpResponse : Response → Except String String

/-- What is written to standard output: text printed by `fmt`, or the bytes of a response
body copied by `io.Copy(os.Stdout, resp.Body)`. -/
inductive Output where
  | text (s : String)
  | body (b : String)
  deriving DecidableEq

/-- The constant `BOLD` of `requests.go`. -/
def BOLD : String := "\x1b[1m"

/-- The constant `RESET` of `requests.go`. -/
def RESET : String := "\x1b[0m"

/-- Split a list of characters at every carriage return followed by a line feed. -/
def splitCRLFChars : List Char → List (List Char)
  | [] => [[]]
  | [c] => [[c]]
  | c :: d :: rest =>
    if c = Char.ofNat 13 ∧ d = Char.ofNat 10 then [] :: splitCRLFChars rest
    else
      match splitCRLFChars (d :: rest) with
      | [] => [[c]]
      | g :: gs => (c :: g) :: gs

/-- The call `bytes.Split(rawResponse, []byte("\r\n"))`. -/
def splitCRLF (raw : String) : List String := (splitCRLFChars raw.data).map String.mk

/-- The function `bytes.Contains`. -/
def Contains (line sub : String) : Bool :=
  line.data.tails.any (fun t => sub.data.isPrefixOf t)

/-- The method `printMatchingHeaders`; `values[0]` out of range is `none`. The headers are
visited in the order of the list, which stands for the order that the iteration over the Go
map takes at this call: Go chooses it anew at every call, so the order of the echo lines is
one of the possible ones. -/
def printMatchingHeaders : Header → String → Option (List String)
  | [], _ => some []
  | (key, values) :: rest, line =>
    if Contains line key then
      match values[0]? with
      | none => none
      | some v =>
        match printMatchingHeaders rest line with
        | none => none
        | some ls => some ((BOLD ++ key ++ RESET ++ ": " ++ v ++ "\n") :: ls)
    else printMatchingHeaders rest line

/-- The loop of `handleVerbose` over the lines of the dumped response. -/
def verboseLines (req : Request) (resp : Response) : List String → Option (List String)
  | [] => some []
  | line :: rest =>
    if len line = 0 then verboseLines req resp rest
    else
      match (if req.flags.method = "HEAD" then printMatchingHeaders resp.Header line
        else some []) with
      | none => none
      | some hs =>
        match verboseLines req resp rest with
        | none => none
        | some ls => some (("< " ++ line ++ "\n") :: hs ++ ls)

/-- The method `handleVerbose`: the lines printed, or the error returned. -/
def handleVerbose (env : Env) (req : Request) (resp : Response) :
    Option (Except String (List String)) :=
  if !req.flags.verbose then some (.ok [])
  else
    match env.DumpResponse resp with
    | .error e => some (.error e)
    | .ok rawResponse =>
      match verboseLines req resp (splitCRLF rawResponse) with
      | none => none
      | some ls => some (.ok ls)

/-- The variable `headerOrder` of `printHeader`. -/
def headerOrder : List String :=
  ["Date", "Content-Type", "Content-Length", "Server", "Access-Control-Allow-Origin",
    "Access-Control-Allow-Credentials"]

/-- The method `printHeader`: the text of its buffer, printed at once. -/
def printHeader (resp : Response) : String :=
  headerOrder.foldl
    (fun buf key =>
      let value := resp.Header.Get key
      if value ≠ "" then buf ++ BOLD ++ key ++ RESET ++ ": " ++ value ++ "\n" else buf)
    ("HTTP/" ++ Itoa resp.ProtoMajor ++ " " ++ Itoa resp.StatusCode ++ "\n")

/-- The call `http.NewRequest(method, url, body)`: an empty method means `GET`, and the new
request has no header. -/
def NewRequest (env : Env) (method url body : String) : Except String HttpRequest :=
  match env.NewRequestErr method url with
  | some e => .error e
  | none =>
    .ok { Method := if method = "" then "GET" else method, URL := url, Body := body,
          Header := [] }

/-- What a call of `SendRequest` leaves behind: the returned error (`none` for `nil`), the
output written, and the state reachable through the pointers `app` and `req`. -/
structure SendResult where
  err : Option String
  out : List Output
  app : application
  req : Request
  deriving DecidableEq

/-- The text that `SendRequest` prints when the `keepAlive` flag is set. -/
def leftIntact (cs : ConnectionState) (req : Request) : String :=
  "* Connection #" ++ Itoa cs.connNum ++ " to host " ++ req.host ++ " left intact\n"

/-- The part of `SendRequest` after `handleVerbose` has returned `nil`. -/
def renderResponse (req : Request) (cs : ConnectionState) (resp : Response) : List Output :=
  (if req.flags.method = "HEAD" ∧ ¬ req.flags.verbose then [Output.text (printHeader resp)]
    else []) ++
  (if req.flags.method ≠ "HEAD" then [Output.text "<\n", Output.body resp.Body] else []) ++
  (if req.flags.keepAlive then [Output.text (leftIntact cs req)] else [])

/-- The variable `url` of `SendRequest`. -/
def requestURL (req : Request) : String :=
  req.protocol ++ "://" ++ req.host ++ ":" ++ req.port ++ req.path

/-- The content of the buffer `reqBody` of `SendRequest`. -/
def requestBody (req : Request) : String :=
  if req.flags.data ≠ "" then req.flags.data else ""

/-- The method `SendRequest`; `none` is a run-time panic. The trace lines of the call all
come before the rendering of the response: a notification that the transport delivers only
while the body is copied (for a verbose request that is not `HEAD`, the return of the
connection to the idle pool) is printed by the program inside the rendering, and this
definition does not place it there. -/
def SendRequest (env : Env) (app : application) (req : Request) : Option SendResult :=
  match NewRequest env req.flags.method (requestURL req) (requestBody req) with
  | .error e => some { err := some ("failed to create request: " ++ e), out := [], app, req }
  | .ok httpReq =>
    match setRequestHeaders httpReq req with
    | none => none
    | some (httpReq, req) =>
      match (if req.flags.verbose then runTrace req app.connState (env.Do httpReq).1
        else some ([], app.connState)) with
      | none => none
      | some (traceOut, cs) =>
        let app := { app with connState := cs }
        match (env.Do httpReq).2 with
        | .error e =>
          some { err := some ("failed to send request: " ++ e),
                 out := traceOut.map Output.text, app, req }
        | .ok resp =>
          match handleVerbose env req resp with
          | none => none
          | some (.error e) =>
            some { err := some ("failed to handle verbose: " ++ e),
                   out := traceOut.map Output.text, app, req }
          | some (.ok ls) =>
            some { err := none,
                   out := traceOut.map Output.text ++ ls.map Output.text ++
                     renderResponse req cs resp,
                   app, req }

/-! ## Argument handling (`arguments.go`) -/

/-- The loop body of `SplitArgsByNext`, on the pair of `splitArgs` and `curArg`. -/
def splitStep (st : List (List String) × List String) (arg : String) :
    List (List String) × List String :=
  if arg = "--next" then (st.1 ++ [st.2], []) else (st.1, st.2 ++ [arg])

/-- The method `SplitArgsByNext`. -/
def SplitArgsByNext (args : List String) : List (List String) :=
  let st := args.foldl splitStep ([], [])
  st.1 ++ [st.2]

/-- The fields of `url.URL` that `processURL` reads. -/
structure URL where
  Scheme : String
  Host : String
  Path : String
  deriving DecidableEq

/-- The function `validOptionalPort` of `net/url`, on the text after the colon. -/
def validPortDigits (port : List Char) : Bool := port.all Char.isDigit

/-- The function `splitHostPort` of `net/url`: the port after the last colon when only digits
follow it, and the host before it, without its brackets when it starts with `[` and ends
with `]`. -/
def splitHostPort (hostPort : String) : String × String :=
  let r := hostPort.data.reverse
  let portRev := r.takeWhile (fun c => c ≠ ':')
  let hp : List Char × List Char :=
    if portRev.length < r.length ∧ validPortDigits portRev then
      ((r.drop (portRev.length + 1)).reverse, portRev.reverse)
    else (hostPort.data, [])
  let host :=
    if hp.1.head? = some '[' ∧ hp.1.getLast? = some ']' then (hp.1.drop 1).dropLast else hp.1
  (String.mk host, String.mk hp.2)

/-- The method `URL.Hostname`. -/
def URL.Hostname (u : URL) : String := (splitHostPort u.Host).1

/-- The method `URL.Port`. -/
def URL.Port (u : URL) : String := (splitHostPort u.Host).2

/-- The method `processURL`; `ParseRequestURI` is `url.ParseRequestURI`. -/
def processURL (ParseRequestURI : String → Except String URL) (req : Request) :
    Except String Request :=
  match ParseRequestURI req.url with
  | .error e => .error ("invalid URL: " ++ e)
  | .ok parsedURL =>
    let req := { req with protocol := parsedURL.Scheme, host := parsedURL.Hostname,
                          path := parsedURL.Path }
    let req := if req.path = "" then { req with path := "/" } else req
    let req := { req with port := parsedURL.Port }
    let req :=
      if req.port = "" then
        if req.protocol = "http" then { req with port := "80" }
        else if req.protocol = "https" then { req with port := "443" }
        else req
      else req
    .ok { req with accept := "*/*" }

/-! ## Interleaved invocations of `ConnectDone` -/

/-- The statements of the handler `ConnectDone`, one atomic step each. -/
inductive Pc where
  | declMu
  | lock
  | check
  | incr
  | bind
  | addrNew
  | store
  | addr
  | print
  | unlock
  | done
  deriving DecidableEq

/-- One running invocation of `ConnectDone`: its arguments, its position, and the mutex that
its own `var mu sync.Mutex` has declared. -/
structure Invocation where
  pc : Pc
  addr : String
  err : Option String
  mu : Nat
  deriving DecidableEq

/-- What the invocations share: the connection state of the application, the mutexes that
exist (`true` for a locked one) and the lines printed so far. -/
structure Shared where
  connState : ConnectionState
  mutexes : List Bool
  out : List String
  deriving DecidableEq

/-- One step of an invocation; `none` when it is blocked on its mutex or has returned. -/
def stepInvocation (req : Request) (sh : Shared) (w : Invocation) :
    Option (Shared × Invocation) :=
  let cs := sh.connState
  match w.pc with
  | .declMu =>
    some ({ sh with mutexes := sh.mutexes ++ [false] },
      { w with mu := sh.mutexes.length, pc := .lock })
  | .lock =>
    if sh.mutexes.getD w.mu false then none
    else some ({ sh with mutexes := sh.mutexes.set w.mu true }, { w with pc := .check })
  | .check =>
    if (mapGet cs.connPool w.addr).isNone then some (sh, { w with pc := .incr })
    else some (sh, { w with pc := .store })
  | .incr =>
    some ({ sh with connState := { cs with connNum := wrapInt (cs.connNum + 1) } },
      { w with pc := .bind })
  | .bind =>
    some ({ sh with connState := { cs with connPool := mapSet cs.connPool w.addr cs.connNum } },
      { w with pc := .addrNew })
  | .addrNew =>
    some ({ sh with connState := { cs with connAddr := w.addr } }, { w with pc := .store })
  | .store =>
    some ({ sh with connState := { cs with connNum := (mapGet cs.connPool w.addr).getD 0 } },
      { w with pc := .addr })
  | .addr =>
    some ({ sh with connState := { cs with connAddr := w.addr } }, { w with pc := .print })
  | .print =>
    let line :=
      match w.err with
      | some e =>
        "* Failed to connect to " ++ req.host ++ " (" ++ w.addr ++ ") #" ++ Itoa cs.connNum ++
          ": " ++ e ++ "\n"
      | none =>
        "* Connected to " ++ req.host ++ " (" ++ w.addr ++ ") #" ++ Itoa cs.connNum ++ "\n"
    some ({ sh with out := sh.out ++ [line] }, { w with pc := .unlock })
  | .unlock =>
    some ({ sh with mutexes := sh.mutexes.set w.mu false }, { w with pc := .done })
  | .done => none

/-- A fresh invocation of `ConnectDone(network, addr, err)`. -/
def invoke (addr : String) (err : Option String) : Invocation :=
  { pc := .declMu, addr := addr, err := err, mu := 0 }

/-- Run the invocations `ws` under a schedule: each entry names the invocation that takes the
next step. A schedule that picks a blocked, returned or absent invocation is `none`. -/
def runSchedule (req : Request) : Shared → List Invocation → List Nat →
    Option (Shared × List Invocation)
  | sh, ws, [] => some (sh, ws)
  | sh, ws, i :: sched =>
    match ws[i]? with
    | none => none
    | some w =>
      match stepInvocation req sh w with
      | none => none
      | some (sh1, w1) => runSchedule req sh1 (ws.set i w1) sched

/-! ## Sample inputs -/

/-- Equality of two strings up to the case of their ASCII letters. -/
def equalFold (a b : String) : Bool := a.data.map Char.toLower = b.data.map Char.toLower

/-- A request for `http://h:80/get` with the given method, user headers, body and flags. -/
def sampleRequest (method : String) (header : List String) (data : String)
    (verbose keepAlive : Bool) : Request :=
  { url := "http://h/get", protocol := "http", host := "h", port := "80", path := "/get",
    accept := "*/*",
    flags := { verbose := verbose, method := method, header := header, data := data,
               keepAlive := keepAlive } }

/-- A response with status 200 and a five-byte body. -/
def sampleResponse : Response :=
  { ProtoMajor := 1, StatusCode := 200, Header := [("Content-Type", ["text/plain"])],
    Body := "hello" }

/-- A transport that connects to `1.2.3.4:80` and answers with `sampleResponse`. -/
def sampleEnv : Env :=
  { NewRequestErr := fun _ _ => none
    Do := fun _ => ([TraceEvent.ConnectDone "tcp" "1.2.3.4:80" none], .ok sampleResponse)
    DumpResponse := fun _ => .ok "HTTP/1.1 200 OK\r\nContent-Type: text/plain\r\n\r\n" }

/-- A transport whose name lookup fails. -/
def failingEnv : Env :=
  { NewRequestErr := fun _ _ => none
    Do := fun _ => ([TraceEvent.DNSStart], .error "dial tcp: lookup h: no such host")
    DumpResponse := fun _ => .error "unused" }

/-! # Theorems

## The connection registry -/

theorem mapGet_mapSet_of_ne {V : Type} (m : List (String × V)) (a k : String) (n : V)
    (h : k ≠ a) : mapGet (mapSet m a n) k = mapGet m k := by
  induction m with
  | nil => simp [mapSet, mapGet, Ne.symm h]
  | cons p rest ih =>
    obtain ⟨k', v'⟩ := p
    by_cases hk : k' = a
    · subst hk
      simp [mapSet, mapGet, Ne.symm h]
    · by_cases hk2 : k' = k
      · subst hk2
        simp [mapSet, mapGet, hk]
      · simp [mapSet, mapGet, hk, hk2, ih]

theorem mapGet_mapSet_self {V : Type} (m : List (String × V)) (a : String) (n : V) :
    mapGet (mapSet m a n) a = some n := by
  induction m with
  | nil => simp [mapSet, mapGet]
  | cons p rest ih =>
    obtain ⟨k', v'⟩ := p
    by_cases hk : k' = a
    · simp [mapSet, mapGet, hk]
    · simp [mapSet, mapGet, hk, ih]

theorem ConnectDone_connPool (req : Request) (cs : ConnectionState) (network addr : String)
    (err : Option String) :
    (ConnectDone req cs network addr err).2.connPool =
      if (mapGet cs.connPool addr).isNone then
        mapSet cs.connPool addr (wrapInt (cs.connNum + 1))
      else cs.connPool := by
  unfold ConnectDone
  by_cases h : (mapGet cs.connPool addr).isNone <;> simp [h]

theorem ConnectDone_keeps (req : Request) (cs : ConnectionState) (network addr : String)
    (err : Option String) (k : String) (v : Int) (h : mapGet cs.connPool k = some v) :
    mapGet (ConnectDone req cs network addr err).2.connPool k = some v := by
  rw [ConnectDone_connPool]
  by_cases hn : (mapGet cs.connPool addr).isNone
  · have hne : k ≠ addr := by
      rintro rfl
      rw [h] at hn
      simp at hn
    simp [hn, mapGet_mapSet_of_ne _ _ _ _ hne, h]
  · simp [hn, h]

theorem connectAll_keeps (req : Request) (calls : List (String × String × Option String)) :
    ∀ (cs : ConnectionState) (k : String) (v : Int), mapGet cs.connPool k = some v →
      mapGet (connectAll req cs calls).connPool k = some v := by
  induction calls with
  | nil => intro cs k v h; simpa [connectAll] using h
  | cons c rest ih =>
    intro cs k v h
    obtain ⟨network, addr, err⟩ := c
    simp only [connectAll]
    exact ih _ k v (ConnectDone_keeps req cs network addr err k v h)

/-- Claim C1, evaluated on the code. From the state of `NewApplication`, the calls of
`ConnectDone` for the addresses `a`, `b`, `a`, `c` bind `a` to 0 and `b` to 1, and then bind
the third distinct address `c` to 1 as well: the call for the known address `a` has reset the
counter `connNum` to 0, so three distinct addresses end up with two distinct ids. -/
theorem ConnectDone_third_address_shares_id (req : Request) :
    (connectAll req NewApplication.connState
      [("tcp", "a", none), ("tcp", "b", none), ("tcp", "a", none), ("tcp", "c", none)]) =
      { connNum := 1, connPool := [("a", 0), ("b", 1), ("c", 1)], connAddr := "c" } ∧
    (connectAll req NewApplication.connState
      [("tcp", "a", none), ("tcp", "b", none), ("tcp", "a", none)]).connNum = 0 :=
  ⟨rfl, rfl⟩

/-- Claim C5. An address keeps its id: a call of `ConnectDone`, for any address and from any
connection state, leaves every binding of `connPool` as it was, and so does every finite
sequence of calls; a call for an address that is already bound to `v` leaves `connPool`
unchanged, stores `v` in `connNum` and the address in `connAddr`, and prints `v`. -/
theorem ConnectDone_id_stable (req : Request) (cs : ConnectionState) (network addr : String)
    (err : Option String) :
    (∀ k v, mapGet cs.connPool k = some v →
      mapGet (ConnectDone req cs network addr err).2.connPool k = some v) ∧
    (∀ v, mapGet cs.connPool addr = some v →
      (ConnectDone req cs network addr err).2.connPool = cs.connPool ∧
      (ConnectDone req cs network addr err).2.connNum = v ∧
      (ConnectDone req cs network addr err).2.connAddr = addr ∧
      (ConnectDone req cs network addr err).1 =
        match err with
        | some e =>
          "* Failed to connect to " ++ req.host ++ " (" ++ addr ++ ") #" ++ Itoa v ++
            ": " ++ e ++ "\n"
        | none => "* Connected to " ++ req.host ++ " (" ++ addr ++ ") #" ++ Itoa v ++ "\n") ∧
    (∀ calls k v, mapGet cs.connPool k = some v →
      mapGet (connectAll req cs calls).connPool k = some v) := by
  refine ⟨fun k v h => ConnectDone_keeps req cs network addr err k v h, ?_,
    fun calls k v h => connectAll_keeps req calls cs k v h⟩
  intro v hv
  unfold ConnectDone
  cases err <;> simp [hv]

/-- Claim C5 at a concrete state: with `a` bound to 0 and `b` to 1, a second call for `a`
changes no binding, stores 0 and prints it. -/
theorem ConnectDone_id_stable_witness :
    mapGet [("a", (0 : Int)), ("b", 1)] "a" = some 0 ∧
    (ConnectDone (sampleRequest "GET" [] "" true false)
        { connNum := 1, connPool := [("a", 0), ("b", 1)], connAddr := "b" }
        "tcp" "a" none).2.connPool = [("a", 0), ("b", 1)] ∧
    (ConnectDone (sampleRequest "GET" [] "" true false)
        { connNum := 1, connPool := [("a", 0), ("b", 1)], connAddr := "b" }
        "tcp" "a" none).2.connNum = 0 ∧
    (ConnectDone (sampleRequest "GET" [] "" true false)
        { connNum := 1, connPool := [("a", 0), ("b", 1)], connAddr := "b" }
        "tcp" "a" none).2.connAddr = "a" ∧
    (ConnectDone (sampleRequest "GET" [] "" true false)
        { connNum := 1, connPool := [("a", 0), ("b", 1)], connAddr := "b" }
        "tcp" "a" none).1 = "* Connected to h (a) #0\n" :=
  ⟨by decide,
    (ConnectDone_id_stable (sampleRequest "GET" [] "" true false)
      { connNum := 1, connPool := [("a", 0), ("b", 1)], connAddr := "b" } "tcp" "a" none).2.1 0
      (by decide)⟩

/-! ## Splitting the arguments -/

theorem intercalate_snoc_two {α : Type} (sep : List α) (xs : List (List α)) (y z : List α) :
    sep.intercalate (xs ++ [y, z]) = sep.intercalate (xs ++ [y]) ++ sep ++ z := by
  induction xs with
  | nil => simp [List.intercalate, List.intersperse]
  | cons x rest ih =>
    cases rest with
    | nil => simp [List.intercalate, List.intersperse]
    | cons x2 rest2 =>
      simp only [List.intercalate, List.cons_append, List.intersperse, List.flatten_cons,
        List.append_eq] at ih ⊢
      rw [ih]
      simp

theorem intercalate_snoc_append {α : Type} (sep : List α) (xs : List (List α)) (y z : List α) :
    sep.intercalate (xs ++ [y ++ z]) = sep.intercalate (xs ++ [y]) ++ z := by
  induction xs with
  | nil => simp [List.intercalate, List.intersperse]
  | cons x rest ih =>
    cases rest with
    | nil => simp [List.intercalate, List.intersperse]
    | cons x2 rest2 =>
      simp only [List.intercalate, List.cons_append, List.intersperse, List.flatten_cons,
        List.append_eq] at ih ⊢
      rw [ih]
      simp

theorem SplitArgsByNext_eq (args : List String) :
    SplitArgsByNext args = (args.foldl splitStep ([], [])).1 ++ [(args.foldl splitStep ([], [])).2] := rfl

theorem splitLoop_length (args : List String) :
    ∀ st : List (List String) × List String,
      ((args.foldl splitStep st).1 ++ [(args.foldl splitStep st).2]).length =
        st.1.length + 1 + args.count "--next" := by
  induction args with
  | nil => intro st; simp
  | cons a rest ih =>
    intro st
    rw [List.foldl_cons, ih]
    by_cases h : a = "--next"
    · subst h
      simp [splitStep]
      omega
    · have h2 : ¬ ("--next" = a) := fun e => h e.symm
      simp [splitStep, h, List.count_cons, h2]

theorem splitLoop_no_next (args : List String) :
    ∀ st : List (List String) × List String,
      (∀ g ∈ st.1, "--next" ∉ g) → "--next" ∉ st.2 →
      ∀ g ∈ (args.foldl splitStep st).1 ++ [(args.foldl splitStep st).2], "--next" ∉ g := by
  induction args with
  | nil =>
    intro st h1 h2 g hg
    simp at hg
    rcases hg with hg | hg
    · exact h1 g hg
    · subst hg; exact h2
  | cons a rest ih =>
    intro st h1 h2
    rw [List.foldl_cons]
    apply ih
    · by_cases h : a = "--next"
      · intro g hg
        simp [splitStep, h] at hg
        rcases hg with hg | hg
        · exact h1 g hg
        · subst hg; exact h2
      · simpa [splitStep, h] using h1
    · by_cases h : a = "--next"
      · simp [splitStep, h]
      · have h3 : ¬ ("--next" = a) := fun e => h e.symm
        simp [splitStep, h, h2, h3]

theorem splitLoop_intercalate (args : List String) :
    ∀ st : List (List String) × List String,
      ["--next"].intercalate ((args.foldl splitStep st).1 ++ [(args.foldl splitStep st).2]) =
        ["--next"].intercalate (st.1 ++ [st.2]) ++ args := by
  induction args with
  | nil => intro st; simp
  | cons a rest ih =>
    intro st
    rw [List.foldl_cons, ih]
    by_cases h : a = "--next"
    · subst h
      have := intercalate_snoc_two ["--next"] st.1 st.2 []
      simp [splitStep] at this ⊢
      rw [this]
      simp
    · have := intercalate_snoc_append ["--next"] st.1 st.2 [a]
      simp [splitStep, h] at this ⊢
      rw [this]
      simp

theorem splitLoop_flatten (args : List String) :
    ∀ st : List (List String) × List String,
      ((args.foldl splitStep st).1 ++ [(args.foldl splitStep st).2]).flatten =
        (st.1 ++ [st.2]).flatten ++ args.filter (fun a => a ≠ "--next") := by
  induction args with
  | nil => intro st; simp
  | cons a rest ih =>
    intro st
    rw [List.foldl_cons, ih]
    by_cases h : a = "--next"
    · simp [splitStep, h]
    · simp [splitStep, h]

/-- Claim C4. For every token list, `SplitArgsByNext` returns one group more than there are
`--next` tokens, no group contains `--next`, joining the groups with one `--next` between
consecutive groups gives back the list, the groups one after the other are the other tokens
in their order, and the list of the test splits into its two groups. -/
theorem SplitArgsByNext_groups (args : List String) :
    (SplitArgsByNext args).length = args.count "--next" + 1 ∧
    (∀ g ∈ SplitArgsByNext args, "--next" ∉ g) ∧
    ["--next"].intercalate (SplitArgsByNext args) = args ∧
    (SplitArgsByNext args).flatten = args.filter (fun a => a ≠ "--next") ∧
    SplitArgsByNext ["-v", "U1", "--next", "-v", "-X", "M", "U2"] =
      [["-v", "U1"], ["-v", "-X", "M", "U2"]] := by
  refine ⟨?_, ?_, ?_, ?_, by decide⟩
  · rw [SplitArgsByNext_eq, splitLoop_length]; simp; omega
  · rw [SplitArgsByNext_eq]
    exact splitLoop_no_next args ([], []) (by simp) (by simp)
  · rw [SplitArgsByNext_eq, splitLoop_intercalate]
    simp [List.intercalate, List.intersperse]
  · rw [SplitArgsByNext_eq, splitLoop_flatten]
    simp

/-! ## Header application -/

theorem splitChars_ne_nil (sep : Char) (l : List Char) : splitChars sep l ≠ [] := by
  cases l with
  | nil => simp [splitChars]
  | cons c cs =>
    unfold splitChars
    by_cases h : c = sep
    · simp [h]
    · simp only [h, if_false]
      cases splitChars sep cs <;> simp

/-- The segments of `splitChars`: the text before the first separator, then the segments of
the text after it. -/
theorem splitChars_eq (sep : Char) (l : List Char) :
    splitChars sep l =
      l.takeWhile (fun c => c ≠ sep) ::
        (match l.dropWhile (fun c => c ≠ sep) with
          | [] => []
          | _ :: rest => splitChars sep rest) := by
  induction l with
  | nil => simp [splitChars]
  | cons c cs ih =>
    rw [splitChars]
    by_cases h : c = sep
    · simp [h, List.takeWhile, List.dropWhile]
    · simp only [h, if_false]
      rw [ih]
      simp [List.takeWhile, List.dropWhile, h]

theorem splitChars_of_not_mem (sep : Char) (l : List Char) (h : sep ∉ l) :
    splitChars sep l = [l] := by
  induction l with
  | nil => simp [splitChars]
  | cons c cs ih =>
    have hc : ¬ c = sep := fun e => h (by simp [e])
    have hcs : sep ∉ cs := fun e => h (by simp [e])
    unfold splitChars
    simp [hc, ih hcs]

theorem dropWhile_ne_nil_iff (sep : Char) (l : List Char) :
    l.dropWhile (fun c => c ≠ sep) ≠ [] ↔ sep ∈ l := by
  induction l with
  | nil => simp
  | cons c cs ih =>
    by_cases h : c = sep
    · simp [List.dropWhile, h]
    · have h2 : ¬ sep = c := fun e => h e.symm
      simp [List.dropWhile, h, h2, ih]

theorem Split_zero (header : String) : (Split header ':')[0]? = some (beforeColon header) := by
  unfold Split beforeColon
  rw [splitChars_eq]
  simp

theorem Split_one_of_mem (header : String) (h : ':' ∈ header.data) :
    ∃ s1, (Split header ':')[1]? = some s1 := by
  unfold Split
  rw [splitChars_eq]
  have := (dropWhile_ne_nil_iff ':' header.data).mpr h
  cases hd : header.data.dropWhile (fun c => c ≠ ':') with
  | nil => exact absurd hd this
  | cons c rest =>
    have hne := splitChars_ne_nil ':' rest
    cases hs : splitChars ':' rest with
    | nil => exact absurd hs hne
    | cons g gs => simp [hs]

theorem Split_one_of_not_mem (header : String) (h : ':' ∉ header.data) :
    (Split header ':')[1]? = none := by
  unfold Split
  rw [splitChars_of_not_mem _ _ h]
  simp

theorem Split_one_of_single (header : String) (h : ':' ∈ header.data)
    (h2 : ':' ∉ (afterColon header).data) :
    (Split header ':')[1]? = some (afterColon header) := by
  unfold Split afterColon at *
  rw [splitChars_eq]
  have := (dropWhile_ne_nil_iff ':' header.data).mpr h
  cases hd : header.data.dropWhile (fun c => c ≠ ':') with
  | nil => exact absurd hd this
  | cons c rest =>
    rw [hd] at h2
    simp at h2
    simp [splitChars_of_not_mem _ _ h2]

theorem mem_dropWhile_of_false (p : Char → Bool) (c : Char) (l : List Char) (hc : c ∈ l)
    (hp : p c = false) : c ∈ l.dropWhile p := by
  induction l with
  | nil => simp at hc
  | cons d ds ih =>
    by_cases hd : p d = true
    · have hne : c ≠ d := by
        rintro rfl
        rw [hd] at hp
        exact absurd hp (by simp)
      have : c ∈ ds := by
        rcases List.mem_cons.mp hc with h | h
        · exact absurd h hne
        · exact h
      simp [List.dropWhile, hd, ih this]
    · simp only [Bool.not_eq_true] at hd
      simp [List.dropWhile, hd]
      simpa using hc

theorem mem_trimChars (c : Char) (l : List Char) (hc : c ∈ l) (hp : isSpace c = false) :
    c ∈ trimChars l := by
  unfold trimChars
  rw [List.mem_reverse]
  apply mem_dropWhile_of_false _ _ _ _ hp
  rw [List.mem_reverse]
  exact mem_dropWhile_of_false _ _ _ hc hp

theorem applyHeaders_cons_some (hd : String) (rest : List String) (h : Header) (req : Request)
    (s1 : String) (h1 : (Split hd ':')[1]? = some s1) :
    applyHeaders (hd :: rest) h req =
      applyHeaders rest (h.Set (TrimSpace (beforeColon hd)) (TrimSpace s1))
        (if TrimSpace (beforeColon hd) = "Connection" ∧ TrimSpace s1 = "keep-alive" then
          { req with flags := { req.flags with keepAlive := true } }
        else req) := by
  rw [applyHeaders]
  simp only [Split_zero, h1]

theorem applyHeaders_cons_none (hd : String) (rest : List String) (h : Header) (req : Request)
    (h1 : (Split hd ':')[1]? = none) : applyHeaders (hd :: rest) h req = none := by
  rw [applyHeaders]
  simp only [Split_zero, h1]

theorem applyHeaders_isSome (hs : List String) :
    ∀ (h : Header) (req : Request), (∀ hd ∈ hs, ':' ∈ hd.data) →
      ∃ r, applyHeaders hs h req = some r := by
  induction hs with
  | nil => intro h req _; exact ⟨(h, req), rfl⟩
  | cons hd rest ih =>
    intro h req hall
    obtain ⟨s1, hs1⟩ := Split_one_of_mem hd (hall hd (by simp))
    rw [applyHeaders_cons_some hd rest h req s1 hs1]
    exact ih _ _ (fun x hx => hall x (by simp [hx]))

theorem applyHeaders_frame (hs : List String) :
    ∀ (h h' : Header) (req req' : Request), applyHeaders hs h req = some (h', req') →
      req' = { req with flags := { req.flags with keepAlive := req'.flags.keepAlive } } ∧
      (req.flags.keepAlive = true → req'.flags.keepAlive = true) := by
  induction hs with
  | nil =>
    intro h h' req req' e
    simp only [applyHeaders, Option.some.injEq, Prod.mk.injEq] at e
    obtain ⟨-, rfl⟩ := e
    exact ⟨rfl, fun x => x⟩
  | cons hd rest ih =>
    intro h h' req req' e
    cases h1 : (Split hd ':')[1]? with
    | none => rw [applyHeaders_cons_none hd rest h req h1] at e; cases e
    | some s1 =>
      rw [applyHeaders_cons_some hd rest h req s1 h1] at e
      by_cases hc : TrimSpace (beforeColon hd) = "Connection" ∧ TrimSpace s1 = "keep-alive"
      · rw [if_pos hc] at e
        obtain ⟨e1, e2⟩ := ih _ _ _ _ e
        refine ⟨?_, fun _ => e2 rfl⟩
        rw [e1]
      · rw [if_neg hc] at e
        exact ih _ _ _ _ e

theorem applyHeaders_flip (hs : List String) :
    ∀ (h h' : Header) (req req' : Request), applyHeaders hs h req = some (h', req') →
      ∀ hd ∈ hs, ∀ s1, (Split hd ':')[1]? = some s1 →
        TrimSpace (beforeColon hd) = "Connection" → TrimSpace s1 = "keep-alive" →
        req'.flags.keepAlive = true := by
  induction hs with
  | nil => intro h h' req req' _ hd hmem; simp at hmem
  | cons x rest ih =>
    intro h h' req req' e hd hmem s1 hs1 hk hv
    cases h1 : (Split x ':')[1]? with
    | none => rw [applyHeaders_cons_none x rest h req h1] at e; cases e
    | some t1 =>
      rw [applyHeaders_cons_some x rest h req t1 h1] at e
      rcases List.mem_cons.mp hmem with rfl | hin
      · rw [hs1] at h1
        cases h1
        rw [if_pos ⟨hk, hv⟩] at e
        exact (applyHeaders_frame rest _ _ _ _ e).2 rfl
      · exact ih _ _ _ _ e hd hin s1 hs1 hk hv

theorem setRequestHeaders_eq (httpReq : HttpRequest) (req : Request) :
    setRequestHeaders httpReq req =
      match applyHeaders req.flags.header
        (baseHeaders httpReq.Header req) req with
      | none => none
      | some (h, req1) =>
        some ({ httpReq with Header :=
          (if (req1.flags.method = "POST" ∨ req1.flags.method = "PATCH" ∨
              req1.flags.method = "PUT") ∧ req1.flags.data ≠ "" then
            Header.Set h "Content-Length" (Itoa (len req1.flags.data))
          else h) }, req1) := rfl

theorem setRequestHeaders_isSome (httpReq : HttpRequest) (req : Request)
    (hall : ∀ hd ∈ req.flags.header, ':' ∈ hd.data) :
    ∃ r, setRequestHeaders httpReq req = some r := by
  rw [setRequestHeaders_eq]
  obtain ⟨⟨h, req1⟩, hr⟩ := applyHeaders_isSome req.flags.header
    (baseHeaders httpReq.Header req) req hall
  rw [hr]
  exact ⟨_, rfl⟩

theorem setRequestHeaders_frame (httpReq httpReq1 : HttpRequest) (req req1 : Request)
    (e : setRequestHeaders httpReq req = some (httpReq1, req1)) :
    req1 = { req with flags := { req.flags with keepAlive := req1.flags.keepAlive } } ∧
      (req.flags.keepAlive = true → req1.flags.keepAlive = true) := by
  rw [setRequestHeaders_eq] at e
  split at e
  · cases e
  · rename_i h r hr
    simp only [Option.some.injEq, Prod.mk.injEq] at e
    obtain ⟨-, rfl⟩ := e
    exact applyHeaders_frame _ _ _ _ _ hr

theorem Header_Get_Set (h : Header) (key value : String) :
    (h.Set key value).Get key = value := by
  unfold Header.Get Header.Set
  rw [mapGet_mapSet_self]

theorem baseHeaders_get_of_ne (h : Header) (req : Request) (K : String)
    (h1 : K ≠ CanonicalMIMEHeaderKey "Accept") (h2 : K ≠ CanonicalMIMEHeaderKey "User-Agent")
    (h3 : K ≠ CanonicalMIMEHeaderKey "Connection") :
    mapGet (baseHeaders h req) K = mapGet h K := by
  unfold baseHeaders
  cases req.flags.keepAlive <;>
    simp [Header.Set, mapGet_mapSet_of_ne _ _ _ _ h1, mapGet_mapSet_of_ne _ _ _ _ h2,
      mapGet_mapSet_of_ne _ _ _ _ h3]

theorem applyHeaders_get_none (hs : List String) (K : String) :
    ∀ (h h1 : Header) (req req1 : Request), applyHeaders hs h req = some (h1, req1) →
      mapGet h K = none →
      (∀ hd ∈ hs, CanonicalMIMEHeaderKey (TrimSpace (beforeColon hd)) ≠ K) →
      mapGet h1 K = none := by
  induction hs with
  | nil =>
    intro h h1 req req1 e h0 _
    simp only [applyHeaders, Option.some.injEq, Prod.mk.injEq] at e
    obtain ⟨rfl, -⟩ := e
    exact h0
  | cons x rest ih =>
    intro h h1 req req1 e h0 hk
    cases hx : (Split x ':')[1]? with
    | none => rw [applyHeaders_cons_none x rest h req hx] at e; cases e
    | some t1 =>
      rw [applyHeaders_cons_some x rest h req t1 hx] at e
      refine ih _ _ _ _ e ?_ (fun hd hin => hk hd (by simp [hin]))
      unfold Header.Set
      rw [mapGet_mapSet_of_ne _ _ _ _ (fun e => hk x (by simp) e.symm)]
      exact h0

/-- Claim C8. When the method is POST, PUT or PATCH and `data` is not empty,
`setRequestHeaders` returns whenever every user header has a colon, and whenever it returns
the header `Content-Length` holds the decimal byte length of `data`, whatever the user headers
supplied. For another method, or for empty `data`, the header map is the one that the loop over
the user headers has left: `Content-Length` is absent unless a user header supplied it. -/
theorem setRequestHeaders_content_length (httpReq : HttpRequest) (req : Request) :
    ((req.flags.method = "POST" ∨ req.flags.method = "PUT" ∨ req.flags.method = "PATCH") →
      req.flags.data ≠ "" →
      ((∀ hd ∈ req.flags.header, ':' ∈ hd.data) →
        ∃ r, setRequestHeaders httpReq req = some r) ∧
      ∀ r, setRequestHeaders httpReq req = some r →
        r.1.Header.Get "Content-Length" = Itoa (len req.flags.data) ∧
        mapGet r.1.Header "Content-Length" = some [Itoa (len req.flags.data)]) ∧
    (¬ (req.flags.method = "POST" ∨ req.flags.method = "PUT" ∨ req.flags.method = "PATCH") ∨
        req.flags.data = "" →
      ∀ r, setRequestHeaders httpReq req = some r →
        (∃ req1, applyHeaders req.flags.header
          (baseHeaders httpReq.Header req) req = some (r.1.Header, req1)) ∧
        (mapGet httpReq.Header "Content-Length" = none →
          (∀ hd ∈ req.flags.header,
            CanonicalMIMEHeaderKey (TrimSpace (beforeColon hd)) ≠ "Content-Length") →
          mapGet r.1.Header "Content-Length" = none)) := by
  constructor
  · intro hm hd
    refine ⟨setRequestHeaders_isSome httpReq req, ?_⟩
    rintro ⟨httpReq1, req1⟩ e
    have hf := (setRequestHeaders_frame _ _ _ _ e).1
    rw [setRequestHeaders_eq] at e
    split at e
    · cases e
    · rename_i h r hr
      simp only [Option.some.injEq, Prod.mk.injEq] at e
      obtain ⟨rfl, rfl⟩ := e
      have hm1 : r.flags.method = req.flags.method := by rw [hf]
      have hd1 : r.flags.data = req.flags.data := by rw [hf]
      have hc : (r.flags.method = "POST" ∨ r.flags.method = "PATCH" ∨ r.flags.method = "PUT") ∧
          r.flags.data ≠ "" := by
        rw [hm1, hd1]
        exact ⟨by tauto, hd⟩
      rw [if_pos hc, hd1]
      refine ⟨Header_Get_Set _ _ _, ?_⟩
      unfold Header.Set
      have hk : CanonicalMIMEHeaderKey "Content-Length" = "Content-Length" := by decide
      rw [hk, mapGet_mapSet_self]
  · intro hno
    rintro ⟨httpReq1, req1⟩ e
    have hf := (setRequestHeaders_frame _ _ _ _ e).1
    rw [setRequestHeaders_eq] at e
    split at e
    · cases e
    · rename_i h r hr
      simp only [Option.some.injEq, Prod.mk.injEq] at e
      obtain ⟨rfl, rfl⟩ := e
      have hm1 : r.flags.method = req.flags.method := by rw [hf]
      have hd1 : r.flags.data = req.flags.data := by rw [hf]
      have hc : ¬ ((r.flags.method = "POST" ∨ r.flags.method = "PATCH" ∨
          r.flags.method = "PUT") ∧ r.flags.data ≠ "") := by
        rw [hm1, hd1]
        tauto
      rw [if_neg hc]
      refine ⟨⟨r, hr⟩, fun h0 hkeys => ?_⟩
      exact applyHeaders_get_none _ "Content-Length" _ _ _ _ hr
        (by rw [baseHeaders_get_of_ne _ _ _ (by decide) (by decide) (by decide)]; exact h0)
        hkeys

/-- Claim C8 at concrete requests: a POST whose body is the two-byte text `é` and whose user
header asks for `content-length: 5` is sent with `Content-Length: 2`; a GET with the same
body and no such user header gets no `Content-Length`. -/
theorem setRequestHeaders_content_length_witness :
    (∃ r, setRequestHeaders
        { Method := "POST", URL := "http://h:80/get", Body := "é", Header := [] }
        (sampleRequest "POST" ["content-length: 5"] "é" false false) = some r ∧
      r.1.Header.Get "Content-Length" = "2") ∧
    (∀ r, setRequestHeaders
        { Method := "GET", URL := "http://h:80/get", Body := "é", Header := [] }
        (sampleRequest "GET" ["X-A: b"] "é" false false) = some r →
      mapGet r.1.Header "Content-Length" = none) := by
  have h := (setRequestHeaders_content_length
    { Method := "POST", URL := "http://h:80/get", Body := "é", Header := [] }
    (sampleRequest "POST" ["content-length: 5"] "é" false false)).1 (Or.inl rfl) (by decide)
  have g := (setRequestHeaders_content_length
    { Method := "GET", URL := "http://h:80/get", Body := "é", Header := [] }
    (sampleRequest "GET" ["X-A: b"] "é" false false)).2 (Or.inl (by decide))
  obtain ⟨r, hr⟩ := h.1 (by decide)
  exact ⟨⟨r, hr, (h.2 r hr).1⟩, fun r hr => (g r hr).2 rfl (by decide)⟩

/-- Claim C2, evaluated on the code. The header strings `Referer: http://a/b` and
`X-Time: 10:30:00` are split at every colon and only the second segment is kept: the values set
are `http` and `10`, not the remainders `http://a/b` and `10:30:00`, and `WroteHeaders` echoes
the same cut values. -/
theorem setRequestHeaders_value_cut_at_second_colon :
    (setRequestHeaders { Method := "GET", URL := "http://h:80/get", Body := "", Header := [] }
        (sampleRequest "GET" ["Referer: http://a/b", "X-Time: 10:30:00"] "" true false)).map
      (fun r => (r.1.Header.Get "Referer", r.1.Header.Get "X-Time")) = some ("http", "10") ∧
    TrimSpace (afterColon "Referer: http://a/b") = "http://a/b" ∧
    TrimSpace (afterColon "X-Time: 10:30:00") = "10:30:00" ∧
    WroteHeaders (sampleRequest "GET" ["Referer: http://a/b", "X-Time: 10:30:00"] "" true false) =
      some ["> GET /get HTTP/1.1\n", "> Host: h\n", "> Accept: */*\n", "> Referer: http\n",
        "> X-Time: 10\n", ">\n"] := by
  decide

/-! ## Sending a request -/

theorem SendRequest_after_trace (env : Env) (app : application) (req req1 : Request)
    (httpReq0 httpReq : HttpRequest) (traceOut : List String) (cs : ConnectionState)
    (hnew : NewRequest env req.flags.method (requestURL req) (requestBody req) = .ok httpReq0)
    (hset : setRequestHeaders httpReq0 req = some (httpReq, req1))
    (htrace : (if req1.flags.verbose then runTrace req1 app.connState (env.Do httpReq).1
      else some ([], app.connState)) = some (traceOut, cs)) :
    SendRequest env app req =
      match (env.Do httpReq).2 with
      | .error e =>
        some { err := some ("failed to send request: " ++ e),
               out := traceOut.map Output.text, app := { app with connState := cs },
               req := req1 }
      | .ok resp =>
        match handleVerbose env req1 resp with
        | none => none
        | some (.error e) =>
          some { err := some ("failed to handle verbose: " ++ e),
                 out := traceOut.map Output.text, app := { app with connState := cs },
                 req := req1 }
        | some (.ok ls) =>
          some { err := none,
                 out := traceOut.map Output.text ++ ls.map Output.text ++
                   renderResponse req1 cs resp,
                 app := { app with connState := cs }, req := req1 } := by
  unfold SendRequest
  simp only [hnew, hset, htrace]

theorem body_not_mem_map_text (b : String) (ls : List String) :
    Output.body b ∉ ls.map Output.text := by
  simp

theorem renderResponse_head (req : Request) (cs : ConnectionState) (resp : Response)
    (hm : req.flags.method = "HEAD") :
    renderResponse req cs resp =
      (if req.flags.verbose then [] else [Output.text (printHeader resp)]) ++
      (if req.flags.keepAlive then [Output.text (leftIntact cs req)] else []) := by
  unfold renderResponse
  cases hv : req.flags.verbose <;> simp [hm, hv]

theorem SendRequest_head_no_body (env : Env) (app : application) (req : Request)
    (hm : req.flags.method = "HEAD") (r : SendResult) (hr : SendRequest env app req = some r)
    (b : String) : Output.body b ∉ r.out := by
  unfold SendRequest at hr
  split at hr
  · cases hr; simp
  · rename_i httpReq0 hnew
    split at hr
    · cases hr
    · rename_i httpReq req1 hset
      have hm1 : req1.flags.method = "HEAD" := by
        rw [(setRequestHeaders_frame _ _ _ _ hset).1]; exact hm
      split at hr
      · cases hr
      · rename_i traceOut cs htrace
        split at hr
        · cases hr; simp
        · rename_i resp hdo
          split at hr
          · cases hr
          · cases hr; simp
          · cases hr
            rw [renderResponse_head _ _ _ hm1]
            cases req1.flags.verbose <;> cases req1.flags.keepAlive <;> simp

/-- Claim C6. For a request whose method is `HEAD`, verbose or not, and for every transport:
whatever `SendRequest` returns, no chunk of its output is a copy of a response body; and when
the transport returns a response and `handleVerbose` returns `nil`, what is written after the
trace lines of the call is the status and header lines of `handleVerbose`, the header summary
of `printHeader` when not verbose, and the `left intact` line when `keepAlive` is set, with
nothing else: the `<` line and the copy of `resp.Body` are absent. -/
theorem SendRequest_head_writes_no_body (env : Env) (app : application) (req : Request)
    (hm : req.flags.method = "HEAD") :
    (∀ r, SendRequest env app req = some r → ∀ b, Output.body b ∉ r.out) ∧
    (∀ (httpReq0 httpReq : HttpRequest) (req1 : Request) (events : List TraceEvent)
        (resp : Response) (traceOut : List String) (cs : ConnectionState) (ls : List String),
      NewRequest env req.flags.method (requestURL req) (requestBody req) = .ok httpReq0 →
      setRequestHeaders httpReq0 req = some (httpReq, req1) →
      env.Do httpReq = (events, .ok resp) →
      (if req1.flags.verbose then runTrace req1 app.connState events
        else some ([], app.connState)) = some (traceOut, cs) →
      handleVerbose env req1 resp = some (.ok ls) →
      SendRequest env app req =
        some { err := none,
               out := traceOut.map Output.text ++ ls.map Output.text ++
                 ((if req.flags.verbose then [] else [Output.text (printHeader resp)]) ++
                  (if req1.flags.keepAlive then [Output.text (leftIntact cs req)] else [])),
               app := { app with connState := cs }, req := req1 }) := by
  refine ⟨fun r hr b => SendRequest_head_no_body env app req hm r hr b, ?_⟩
  intro httpReq0 httpReq req1 events resp traceOut cs ls hnew hset hdo htrace hverb
  have hf := (setRequestHeaders_frame _ _ _ _ hset).1
  have hm1 : req1.flags.method = "HEAD" := by rw [hf]; exact hm
  have hv1 : req1.flags.verbose = req.flags.verbose := by rw [hf]
  have hh : leftIntact cs req1 = leftIntact cs req := by
    unfold leftIntact; rw [hf]
  have hd1 : (env.Do httpReq).1 = events := by rw [hdo]
  have hd2 : (env.Do httpReq).2 = .ok resp := by rw [hdo]
  rw [← hd1] at htrace
  rw [SendRequest_after_trace env app req req1 httpReq0 httpReq traceOut cs hnew hset htrace]
  simp only [hd2, hverb]
  rw [renderResponse_head _ _ _ hm1, hv1, hh]

/-- Claim C9. When the transport call of `SendRequest` fails with the error `e`, the method
returns the error `failed to send request: ` followed by `e`, and its whole output is what the
trace handlers printed while the call ran (nothing when the request is not verbose): no line
of the response, no body and no `left intact` line follow. -/
theorem SendRequest_transport_failure (env : Env) (app : application) (req req1 : Request)
    (httpReq0 httpReq : HttpRequest) (events : List TraceEvent) (e : String)
    (traceOut : List String) (cs : ConnectionState)
    (hnew : NewRequest env req.flags.method (requestURL req) (requestBody req) = .ok httpReq0)
    (hset : setRequestHeaders httpReq0 req = some (httpReq, req1))
    (hdo : env.Do httpReq = (events, .error e))
    (htrace : (if req1.flags.verbose then runTrace req1 app.connState events
      else some ([], app.connState)) = some (traceOut, cs)) :
    SendRequest env app req =
      some { err := some ("failed to send request: " ++ e),
             out := traceOut.map Output.text, app := { app with connState := cs },
             req := req1 } ∧
    (req.flags.verbose = false → traceOut = []) := by
  have hd1 : (env.Do httpReq).1 = events := by rw [hdo]
  have hd2 : (env.Do httpReq).2 = .error e := by rw [hdo]
  have hf := (setRequestHeaders_frame _ _ _ _ hset).1
  have hv1 : req1.flags.verbose = req.flags.verbose := by rw [hf]
  constructor
  · rw [← hd1] at htrace
    rw [SendRequest_after_trace env app req req1 httpReq0 httpReq traceOut cs hnew hset htrace]
    simp only [hd2]
  · intro hv
    rw [hv1, hv] at htrace
    simp at htrace
    exact htrace.1

/-- The path of the exact spelling. When a user header has the trimmed key `Connection`,
spelled exactly so, and its second segment `s[1]`, trimmed, is `keep-alive`, then
`setRequestHeaders` returns if every user header has a colon, and whenever it returns the flag
`keepAlive` is set, whatever it was on entry; and a `SendRequest` whose transport call returns
a response and whose `handleVerbose` returns `nil` ends its output with the `left intact`
line for the last recorded connection id. -/
theorem setRequestHeaders_connection_keepAlive (req : Request) (hd s1 : String)
    (hmem : hd ∈ req.flags.header)
    (hkey : TrimSpace (beforeColon hd) = "Connection")
    (hseg : (Split hd ':')[1]? = some s1)
    (hval : TrimSpace s1 = "keep-alive") :
    (∀ httpReq0 : HttpRequest, (∀ x ∈ req.flags.header, ':' ∈ x.data) →
      ∃ r, setRequestHeaders httpReq0 req = some r) ∧
    (∀ (httpReq0 : HttpRequest) r, setRequestHeaders httpReq0 req = some r →
      r.2.flags.keepAlive = true) ∧
    (∀ (env : Env) (app : application) (httpReq0 httpReq : HttpRequest) (req1 : Request)
        (events : List TraceEvent) (resp : Response) (traceOut : List String)
        (cs : ConnectionState) (ls : List String),
      NewRequest env req.flags.method (requestURL req) (requestBody req) = .ok httpReq0 →
      setRequestHeaders httpReq0 req = some (httpReq, req1) →
      env.Do httpReq = (events, .ok resp) →
      (if req1.flags.verbose then runTrace req1 app.connState events
        else some ([], app.connState)) = some (traceOut, cs) →
      handleVerbose env req1 resp = some (.ok ls) →
      ∃ r, SendRequest env app req = some r ∧ r.err = none ∧ r.app.connState = cs ∧
        r.out.getLast? = some (Output.text (leftIntact cs req))) := by
  have hflag : ∀ (httpReq0 httpReq : HttpRequest) (req1 : Request),
      setRequestHeaders httpReq0 req = some (httpReq, req1) → req1.flags.keepAlive = true := by
    intro httpReq0 httpReq req1 hset
    rw [setRequestHeaders_eq] at hset
    split at hset
    · cases hset
    · rename_i h r hr
      simp only [Option.some.injEq, Prod.mk.injEq] at hset
      obtain ⟨-, rfl⟩ := hset
      exact applyHeaders_flip _ _ _ _ _ hr hd hmem s1 hseg hkey hval
  refine ⟨fun httpReq0 hcolon => setRequestHeaders_isSome httpReq0 req hcolon,
    fun httpReq0 r hr => hflag httpReq0 r.1 r.2 hr, ?_⟩
  intro env app httpReq0 httpReq req1 events resp traceOut cs ls hnew hset hdo htrace hverb
  have hk := hflag _ _ _ hset
  have hf := (setRequestHeaders_frame _ _ _ _ hset).1
  have hh : leftIntact cs req1 = leftIntact cs req := by
    unfold leftIntact; rw [hf]
  have hd1 : (env.Do httpReq).1 = events := by rw [hdo]
  have hd2 : (env.Do httpReq).2 = .ok resp := by rw [hdo]
  rw [← hd1] at htrace
  rw [SendRequest_after_trace env app req req1 httpReq0 httpReq traceOut cs hnew hset htrace]
  simp only [hd2, hverb]
  refine ⟨_, rfl, rfl, rfl, ?_⟩
  unfold renderResponse
  rw [if_pos hk, hh, ← List.append_assoc, List.getLast?_append]
  simp

/-- The path of the exact spelling at the request with the header `Connection: keep-alive`
and no `-k`. -/
theorem setRequestHeaders_connection_keepAlive_witness :
    ∃ r, SendRequest sampleEnv NewApplication
        (sampleRequest "GET" ["Connection: keep-alive"] "" false false) = some r ∧
      r.err = none ∧ r.app.connState = NewApplication.connState ∧
      r.out.getLast? = some (Output.text "* Connection #-1 to host h left intact\n") :=
  (setRequestHeaders_connection_keepAlive
    (sampleRequest "GET" ["Connection: keep-alive"] "" false false) "Connection: keep-alive"
    " keep-alive" (by decide) (by decide) (by decide) (by decide)).2.2 sampleEnv NewApplication
    _ _ _ _ _ _ _ _ rfl rfl rfl rfl rfl

/-- Claim C3, evaluated on the code. Three requests without a body go out with the same header
`Connection: keep-alive`. With the flag `-k`, and with the user header `Connection: keep-alive`
and no `-k`, the flag `keepAlive` is set after `setRequestHeaders` and `SendRequest` ends with
the `left intact` line. With the user header `connection: keep-alive` and no `-k`, whose
trimmed key equals `Connection` up to case and whose trimmed value is `keep-alive`,
`Header.Set` stores the value under the key `Connection` all the same, but the comparison of
the key with `Connection` fails: the flag stays false and `SendRequest` prints no
`left intact` line. -/
theorem lowercase_connection_header_keeps_flag :
    equalFold (TrimSpace (beforeColon "connection: keep-alive")) "Connection" = true ∧
    TrimSpace (afterColon "connection: keep-alive") = "keep-alive" ∧
    (setRequestHeaders { Method := "GET", URL := "http://h:80/get", Body := "", Header := [] }
        (sampleRequest "GET" ["connection: keep-alive"] "" false false)).map
      (fun r => (mapGet r.1.Header "Connection", r.2.flags.keepAlive)) =
        some (some ["keep-alive"], false) ∧
    (SendRequest sampleEnv NewApplication
        (sampleRequest "GET" ["connection: keep-alive"] "" false false)).map
      (fun r => (r.err, r.out)) = some (none, [Output.text "<\n", Output.body "hello"]) ∧
    (setRequestHeaders { Method := "GET", URL := "http://h:80/get", Body := "", Header := [] }
        (sampleRequest "GET" ["Connection: keep-alive"] "" false false)).map
      (fun r => (mapGet r.1.Header "Connection", r.2.flags.keepAlive)) =
        some (some ["keep-alive"], true) ∧
    (SendRequest sampleEnv NewApplication
        (sampleRequest "GET" ["Connection: keep-alive"] "" false false)).map
      (fun r => (r.err, r.out)) =
        some (none, [Output.text "<\n", Output.body "hello",
          Output.text "* Connection #-1 to host h left intact\n"]) ∧
    (setRequestHeaders { Method := "GET", URL := "http://h:80/get", Body := "", Header := [] }
        (sampleRequest "GET" [] "" false true)).map
      (fun r => (mapGet r.1.Header "Connection", r.2.flags.keepAlive)) =
        some (some ["keep-alive"], true) ∧
    (SendRequest sampleEnv NewApplication (sampleRequest "GET" [] "" false true)).map
      (fun r => (r.err, r.out)) =
        some (none, [Output.text "<\n", Output.body "hello",
          Output.text "* Connection #-1 to host h left intact\n"]) :=
  ⟨by decide, by decide, by decide, by decide, by decide, by decide, by decide, by decide⟩

/-- Claim C6 at a verbose `HEAD` request with `keepAlive` set. -/
theorem SendRequest_head_writes_no_body_witness :
    (sampleRequest "HEAD" [] "" true true).flags.method = "HEAD" ∧
    SendRequest sampleEnv NewApplication (sampleRequest "HEAD" [] "" true true) =
      some { err := none,
             out := [Output.text "* Connected to h (1.2.3.4:80) #0\n",
                     Output.text "< HTTP/1.1 200 OK\n",
                     Output.text "< Content-Type: text/plain\n",
                     Output.text "\x1b[1mContent-Type\x1b[0m: text/plain\n",
                     Output.text "* Connection #0 to host h left intact\n"],
             app := { reqs := [],
                      connState := { connNum := 0, connPool := [("1.2.3.4:80", 0)],
                                     connAddr := "1.2.3.4:80" } },
             req := sampleRequest "HEAD" [] "" true true } :=
  ⟨rfl,
    (SendRequest_head_writes_no_body sampleEnv NewApplication
      (sampleRequest "HEAD" [] "" true true) rfl).2 _ _ _ _ _ _ _ _ rfl rfl rfl rfl rfl⟩

/-- Claim C9 at a verbose request with `keepAlive` set whose host does not resolve. -/
theorem SendRequest_transport_failure_witness :
    SendRequest failingEnv NewApplication (sampleRequest "GET" [] "" true true) =
      some { err := some "failed to send request: dial tcp: lookup h: no such host",
             out := [Output.text "* DNS lookup begins...\n"],
             app := NewApplication,
             req := sampleRequest "GET" [] "" true true } :=
  (SendRequest_transport_failure failingEnv NewApplication
    (sampleRequest "GET" [] "" true true) _ _ _ _ _ _ _ rfl rfl rfl rfl).1

/-! ## Processing the URL -/

/-- Claim C7. When the URL of the request parses, `processURL` returns a request whose port
is the port of the URL when it has one, `80` for the scheme `http` and `443` for the scheme
`https` when it has none, whose path is `/` when the path of the URL is empty and that path
otherwise, and whose `accept` is `*/*`. -/
theorem processURL_port_path_accept (ParseRequestURI : String → Except String URL)
    (req : Request) (u : URL)
    (hparse : ParseRequestURI req.url = .ok u) :
    ∃ r, processURL ParseRequestURI req = .ok r ∧
      (u.Port ≠ "" → r.port = u.Port) ∧
      (u.Port = "" → u.Scheme = "http" → r.port = "80") ∧
      (u.Port = "" → u.Scheme = "https" → r.port = "443") ∧
      (u.Path = "" → r.path = "/") ∧
      (u.Path ≠ "" → r.path = u.Path) ∧
      r.accept = "*/*" ∧ r.protocol = u.Scheme ∧ r.host = u.Hostname ∧
      r.url = req.url ∧ r.flags = req.flags := by
  unfold processURL
  simp only [hparse]
  refine ⟨_, rfl, ?_⟩
  by_cases hp : u.Port = "" <;> by_cases hpath : u.Path = "" <;>
    by_cases hs : u.Scheme = "http" <;> by_cases hs2 : u.Scheme = "https" <;>
    simp_all

/-- Claim C7 at `http://h:8080/get`: the port `8080` is kept. -/
theorem processURL_port_path_accept_witness :
    URL.Port { Scheme := "http", Host := "h:8080", Path := "/get" } = "8080" ∧
    ∃ r, processURL (fun _ => .ok { Scheme := "http", Host := "h:8080", Path := "/get" })
        (sampleRequest "GET" [] "" false false) = .ok r ∧ r.port = "8080" ∧ r.path = "/get" ∧
      r.accept = "*/*" ∧ r.host = "h" := by
  refine ⟨by decide, ?_⟩
  obtain ⟨r, hr, h1, -, -, -, h5, h6, -, h8, -⟩ :=
    processURL_port_path_accept (fun _ => .ok { Scheme := "http", Host := "h:8080", Path := "/get" })
      (sampleRequest "GET" [] "" false false) { Scheme := "http", Host := "h:8080", Path := "/get" }
      rfl
  exact ⟨r, hr, h1 (by decide), h5 (by decide), h6, h8⟩

/-! ## Interleaved invocations of the connect-completion handler -/

theorem set_length_append (l : List Bool) (a b : Bool) :
    (l ++ [a]).set l.length b = l ++ [b] := by
  induction l with
  | nil => rfl
  | cons x xs ih => simp [List.set, ih]

theorem getD_length_append (l : List Bool) (a : Bool) :
    (l ++ [a]).getD l.length false = a := by
  induction l with
  | nil => rfl
  | cons x xs ih => simp [List.getD, ih]

/-- An invocation of `ConnectDone` that runs alone from its first to its last statement does
what the sequential handler does. -/
theorem runSchedule_alone (req : Request) (cs : ConnectionState) (mutexes : List Bool)
    (out : List String) (addr : String) (err : Option String) :
    runSchedule req { connState := cs, mutexes := mutexes, out := out } [invoke addr err]
        (List.replicate (if (mapGet cs.connPool addr).isNone then 10 else 7) 0) =
      some ({ connState := (ConnectDone req cs "tcp" addr err).2,
              mutexes := mutexes ++ [false],
              out := out ++ [(ConnectDone req cs "tcp" addr err).1] },
        [{ pc := .done, addr := addr, err := err, mu := mutexes.length }]) := by
  by_cases h : (mapGet cs.connPool addr).isNone
  · simp [h, List.replicate, runSchedule, stepInvocation, invoke, ConnectDone,
      set_length_append, getD_length_append, mapGet_mapSet_self]
  · simp [h, List.replicate, runSchedule, stepInvocation, invoke, ConnectDone,
      set_length_append, getD_length_append]

/-- Claim C10, evaluated on the code. Every invocation of `ConnectDone` declares a mutex of
its own, so no invocation ever waits for another: after two steps each, two invocations hold
their two mutexes at once. Under one schedule two invocations for the same unseen address
print the ids 0 and 1 and rebind the address from 0 to 1; under another, invocations for two
distinct addresses bind both to the id 1. -/
theorem ConnectDone_interleaving_divergent_ids :
    (runSchedule (sampleRequest "GET" [] "" true false)
        { connState := NewApplication.connState, mutexes := [], out := [] }
        [invoke "1.2.3.4:80" none, invoke "1.2.3.4:80" none] [0, 0, 1, 1]).map
      (fun r => (r.1.mutexes, r.2.map (fun w => (w.pc, w.mu)))) =
      some ([true, true], [(Pc.check, 0), (Pc.check, 1)]) ∧
    (runSchedule (sampleRequest "GET" [] "" true false)
        { connState := NewApplication.connState, mutexes := [], out := [] }
        [invoke "1.2.3.4:80" none, invoke "1.2.3.4:80" none]
        [0, 0, 0, 1, 1, 1, 0, 0, 0, 0, 0, 0, 0, 1, 1, 1, 1, 1, 1, 1]).map
      (fun r => (r.1.out, r.1.connState.connPool, r.2.map (fun w => (w.pc, w.mu)))) =
      some (["* Connected to h (1.2.3.4:80) #0\n", "* Connected to h (1.2.3.4:80) #1\n"],
        [("1.2.3.4:80", 1)], [(Pc.done, 0), (Pc.done, 1)]) ∧
    (runSchedule (sampleRequest "GET" [] "" true false)
        { connState := NewApplication.connState, mutexes := [], out := [] }
        [invoke "1.2.3.4:80" none, invoke "5.6.7.8:80" none]
        [0, 0, 0, 1, 1, 1, 0, 1, 0, 1, 0, 0, 0, 0, 0, 1, 1, 1, 1, 1]).map
      (fun r => (r.1.out, r.1.connState.connPool, r.2.map (fun w => (w.pc, w.mu)))) =
      some (["* Connected to h (1.2.3.4:80) #1\n", "* Connected to h (5.6.7.8:80) #1\n"],
        [("1.2.3.4:80", 1), ("5.6.7.8:80", 1)], [(Pc.done, 0), (Pc.done, 1)]) :=
  ⟨rfl, rfl, rfl⟩

/-! ## Range of the access to the second header segment -/

theorem Split_length_gt_one_iff (header : String) :
    1 < (Split header ':').length ↔ ':' ∈ header.data := by
  constructor
  · intro h
    by_contra hno
    have := Split_one_of_not_mem header hno
    rw [List.getElem?_eq_none_iff] at this
    omega
  · intro h
    obtain ⟨s1, hs1⟩ := Split_one_of_mem header h
    by_contra hle
    have : (Split header ':')[1]? = none := by
      rw [List.getElem?_eq_none_iff]; omega
    rw [this] at hs1
    cases hs1

theorem applyHeaders_isSome_iff (hs : List String) :
    ∀ (h : Header) (req : Request),
      (applyHeaders hs h req).isSome ↔ ∀ hd ∈ hs, ':' ∈ hd.data := by
  induction hs with
  | nil => intro h req; simp [applyHeaders]
  | cons x rest ih =>
    intro h req
    by_cases hx : ':' ∈ x.data
    · obtain ⟨s1, hs1⟩ := Split_one_of_mem x hx
      rw [applyHeaders_cons_some x rest h req s1 hs1, ih]
      simp [hx]
    · rw [applyHeaders_cons_none x rest h req (Split_one_of_not_mem x hx)]
      simp [hx]

theorem wroteHeaderLines_isSome_iff (hs : List String) :
    (wroteHeaderLines hs).isSome ↔ ∀ hd ∈ hs, ':' ∈ hd.data := by
  induction hs with
  | nil => simp [wroteHeaderLines]
  | cons x rest ih =>
    by_cases hx : ':' ∈ x.data
    · obtain ⟨s1, hs1⟩ := Split_one_of_mem x hx
      rw [wroteHeaderLines]
      simp only [Split_zero, hs1]
      cases hr : wroteHeaderLines rest with
      | none =>
        rw [hr] at ih
        simp only [Option.isSome_none, Bool.false_eq_true, false_iff] at ih ⊢
        intro hall
        exact ih (fun hd hin => hall hd (by simp [hin]))
      | some ls =>
        rw [hr] at ih
        simp only [Option.isSome_some, true_iff] at ih ⊢
        intro hd hin
        rcases List.mem_cons.mp hin with rfl | hin
        · exact hx
        · exact ih hd hin
    · rw [wroteHeaderLines]
      simp only [Split_zero, Split_one_of_not_mem x hx]
      simp [hx]

/-- Claim C11. The access `s[1]` to the second segment of a header string is in range exactly
when the string contains a colon. So `setRequestHeaders` completes, for every request,
exactly when every user header contains a colon, and so does the handler `WroteHeaders`; with
the single user header `foo` both fail. -/
theorem setRequestHeaders_completes_iff_colon (httpReq : HttpRequest) (req : Request) :
    (∀ hd : String, 1 < (Split hd ':').length ↔ ':' ∈ hd.data) ∧
    ((setRequestHeaders httpReq req).isSome ↔ ∀ hd ∈ req.flags.header, ':' ∈ hd.data) ∧
    ((WroteHeaders req).isSome ↔ ∀ hd ∈ req.flags.header, ':' ∈ hd.data) ∧
    setRequestHeaders httpReq { req with flags := { req.flags with header := ["foo"] } } =
      none ∧
    WroteHeaders { req with flags := { req.flags with header := ["foo"] } } = none := by
  have hset : ∀ r : Request,
      (setRequestHeaders httpReq r).isSome ↔ ∀ hd ∈ r.flags.header, ':' ∈ hd.data := by
    intro r
    rw [← applyHeaders_isSome_iff r.flags.header (baseHeaders httpReq.Header r) r,
      setRequestHeaders_eq]
    cases applyHeaders r.flags.header (baseHeaders httpReq.Header r) r <;> rfl
  have hwrote : ∀ r : Request,
      (WroteHeaders r).isSome ↔ ∀ hd ∈ r.flags.header, ':' ∈ hd.data := by
    intro r
    rw [← wroteHeaderLines_isSome_iff r.flags.header]
    unfold WroteHeaders
    cases wroteHeaderLines r.flags.header <;> rfl
  refine ⟨Split_length_gt_one_iff, hset req, hwrote req, ?_, ?_⟩
  · have h := hset { req with flags := { req.flags with header := ["foo"] } }
    cases hr : setRequestHeaders httpReq
        { req with flags := { req.flags with header := ["foo"] } } with
    | none => rfl
    | some r =>
      rw [hr] at h
      exact absurd (h.mp rfl "foo" (by simp)) (by decide)
  · have h := hwrote { req with flags := { req.flags with header := ["foo"] } }
    cases hr : WroteHeaders { req with flags := { req.flags with header := ["foo"] } } with
    | none => rfl
    | some r =>
      rw [hr] at h
      exact absurd (h.mp rfl "foo" (by simp)) (by decide)

/-- Claim C11 at concrete requests: with the headers `A: b` and `X-Time: 10:30:00` both
functions complete, with the headers `A: b` and `foo` both fail. -/
theorem setRequestHeaders_completes_iff_colon_witness :
    (setRequestHeaders { Method := "GET", URL := "http://h:80/get", Body := "", Header := [] }
      (sampleRequest "GET" ["A: b", "X-Time: 10:30:00"] "" true false)).isSome = true ∧
    (WroteHeaders (sampleRequest "GET" ["A: b", "X-Time: 10:30:00"] "" true false)).isSome =
      true ∧
    (setRequestHeaders { Method := "GET", URL := "http://h:80/get", Body := "", Header := [] }
      (sampleRequest "GET" ["A: b", "foo"] "" true false)).isSome = false ∧
    (WroteHeaders (sampleRequest "GET" ["A: b", "foo"] "" true false)).isSome = false :=
  ⟨(setRequestHeaders_completes_iff_colon
      { Method := "GET", URL := "http://h:80/get", Body := "", Header := [] }
      (sampleRequest "GET" ["A: b", "X-Time: 10:30:00"] "" true false)).2.1.mpr (by decide),
    (setRequestHeaders_completes_iff_colon
      { Method := "GET", URL := "http://h:80/get", Body := "", Header := [] }
      (sampleRequest "GET" ["A: b", "X-Time: 10:30:00"] "" true false)).2.2.1.mpr (by decide),
    Bool.eq_false_iff.mpr (fun h => absurd
      ((setRequestHeaders_completes_iff_colon
        { Method := "GET", URL := "http://h:80/get", Body := "", Header := [] }
        (sampleRequest "GET" ["A: b", "foo"] "" true false)).2.1.mp h) (by decide)),
    Bool.eq_false_iff.mpr (fun h => absurd
      ((setRequestHeaders_completes_iff_colon
        { Method := "GET", URL := "http://h:80/get", Body := "", Header := [] }
        (sampleRequest "GET" ["A: b", "foo"] "" true false)).2.2.1.mp h) (by decide))⟩

end Gocurl
